import Mathlib

/-!
Shallow embedding of the quantized average-pooling operator
`average_pool_2d` from `src/src/ops/average_pool_2d.rs` of microflow-rs.

Modelling conventions:
* quantized integer codes are `ℤ`; the representable range of the output
  quantized type `T` is an explicit interval `[lo, hi]` (e.g. `[-128, 127]`
  for `i8`);
* `f32` values are embedded as exact rationals `ℚ` (the spec's
  "real arithmetic"); the one place where IEEE-754 specialness matters —
  a window with zero in-bounds elements, where the code computes
  `1.0 / 0.0 * 0.0 = NaN` — is modelled by `Option.none` (NaN poisoning);
* the per-pixel element `[T; INPUT_CHANS]` is a `List ℤ`, so that the
  partial `slice::get` is `List.get?`;
* a tensor buffer is a total function `ℕ → ℕ → List ℤ`; the bounds-checked
  accessor `bufGet` supplies the `Option` interface of `Buffer2D::get`;
* the output tensor is represented by its code at each coordinate
  `(i, j, c)`; scale and zero-point are passed through unchanged.
-/

namespace MicroFlow

/-- Fused activation selector (`crate::activation::FusedActivation`). -/
inductive FusedActivation
  | NONE
  | RELU
  | RELU6
deriving DecidableEq

/-- Padding policy of the operator (`AveragePool2DPadding`, lines 20-23). -/
inductive AveragePool2DPadding
  | SAME
  | VALID
deriving DecidableEq

/-- Operator options (`AveragePool2DOptions`, lines 14-18); `strides` is
`(row_stride, col_stride)`. -/
structure AveragePool2DOptions where
  fused_activation : FusedActivation
  padding : AveragePool2DPadding
  strides : ℕ × ℕ

/-- The const-generic dimension parameters `INPUT_ROWS`, `INPUT_COLS`,
`FILTER_ROWS`, `FILTER_COLS` of `average_pool_2d`. -/
structure Dims where
  input_rows : ℕ
  input_cols : ℕ
  filter_rows : ℕ
  filter_cols : ℕ

/-- Modelled from the spec: bounds-checked buffer access of `Buffer2D`
(`buffer.rs` is not under `src/`): `get(row, col)` returns the per-pixel
channel values, or nothing when the position is out of bounds
(spec section 6, used by line 64 of the source). -/
def bufGet (rows cols : ℕ) (buf : ℕ → ℕ → List ℤ) (r c : ℕ) : Option (List ℤ) :=
  if r < rows ∧ c < cols then some (buf r c) else none

/-- Channel access with broadcast fallback, the expression
`x.get(c).copied().unwrap_or(x[0])` (lines 65 and 74). An empty per-pixel
element would panic in the source (`x[0]`); here the fallback defaults to 0,
and the theorems about `chanAccess` assume a nonempty element. -/
def chanAccess (xs : List ℤ) (c : ℕ) : ℤ :=
  match xs.get? c with
  | some v => v
  | none => xs.headD 0

/-- The SAME-padding window shift `((FILTER_ROWS - 1) / 2, (FILTER_COLS - 1) / 2)`
(line 49, natural-number floor division). -/
def shiftOf (d : Dims) : ℕ × ℕ :=
  ((d.filter_rows - 1) / 2, (d.filter_cols - 1) / 2)

/-- All window positions `(m, n)` with `m < fr`, `n < fc`, in row-major order:
the index set of `Buffer2D::from_fn(|m, n| ...)` (line 47). -/
def windowIdx (fr fc : ℕ) : List (ℕ × ℕ) :=
  (List.range (fr * fc)).map (fun k => (k / fc, k % fc))

/-- One SAME-padding window element (lines 48-70): the value written into the
view, paired with `true` when the element is excluded (the source then
decrements `len` and stores code 0). The row underflow check runs first and
returns early, so an element whose row and column are both out of range is
still flagged exactly once. -/
def sameElem (d : Dims) (buf : ℕ → ℕ → List ℤ) (strides : ℕ × ℕ)
    (i j c m n : ℕ) : ℤ × Bool :=
  if strides.1 * i + m < (shiftOf d).1 then (0, true)
  else if strides.2 * j + n < (shiftOf d).2 then (0, true)
  else
    match bufGet d.input_rows d.input_cols buf
        (strides.1 * i + m - (shiftOf d).1) (strides.2 * j + n - (shiftOf d).2) with
    | some x => (chanAccess x c, false)
    | none => (0, true)

/-- The SAME-padding view together with exclusion flags, one entry per window
position. -/
def sameWindow (d : Dims) (buf : ℕ → ℕ → List ℤ) (strides : ℕ × ℕ)
    (i j c : ℕ) : List (ℤ × Bool) :=
  (windowIdx d.filter_rows d.filter_cols).map
    (fun q => sameElem d buf strides i j c q.1 q.2)

/-- The divisor `len` after all decrements (lines 45, 54, 60, 67):
`FILTER_ROWS * FILTER_COLS` minus the number of excluded window elements. -/
def sameLen (d : Dims) (buf : ℕ → ℕ → List ℤ) (strides : ℕ × ℕ)
    (i j c : ℕ) : ℕ :=
  d.filter_rows * d.filter_cols -
    (sameWindow d buf strides i j c).countP (fun e => e.2)

/-- The window sum `view.cast::<i32>().sum()` (line 77); excluded elements
contribute the stored code 0. -/
def sameSum (d : Dims) (buf : ℕ → ℕ → List ℤ) (strides : ℕ × ℕ)
    (i j c : ℕ) : ℤ :=
  ((sameWindow d buf strides i j c).map (fun e => e.1)).sum

/-- Whether window position `(m, n)` maps to an in-bounds input index under
SAME padding: no underflow in either `checked_sub` and the resulting index
inside `[0, input_rows) × [0, input_cols)`. -/
def inBoundsB (d : Dims) (strides : ℕ × ℕ) (i j m n : ℕ) : Bool :=
  decide ((shiftOf d).1 ≤ strides.1 * i + m) &&
  decide ((shiftOf d).2 ≤ strides.2 * j + n) &&
  decide (strides.1 * i + m - (shiftOf d).1 < d.input_rows) &&
  decide (strides.2 * j + n - (shiftOf d).2 < d.input_cols)

/-- The number of in-bounds window positions at output coordinate `(i, j)`. -/
def inBoundsCount (d : Dims) (strides : ℕ × ℕ) (i j : ℕ) : ℕ :=
  (windowIdx d.filter_rows d.filter_cols).countP
    (fun q => inBoundsB d strides i j q.1 q.2)

/-- The input code read for an in-bounds SAME window position `(m, n)`. -/
def sameValue (d : Dims) (buf : ℕ → ℕ → List ℤ) (strides : ℕ × ℕ)
    (i j c : ℕ) (q : ℕ × ℕ) : ℤ :=
  chanAccess (buf (strides.1 * i + q.1 - (shiftOf d).1)
                  (strides.2 * j + q.2 - (shiftOf d).2)) c

/-- The sum of the input codes over exactly the in-bounds window positions. -/
def inBoundsSum (d : Dims) (buf : ℕ → ℕ → List ℤ) (strides : ℕ × ℕ)
    (i j c : ℕ) : ℤ :=
  (((windowIdx d.filter_rows d.filter_cols).filter
      (fun q => inBoundsB d strides i j q.1 q.2)).map
      (sameValue d buf strides i j c)).sum

/-- `libm::roundf`: round to nearest, ties away from zero, embedded on `ℚ`. -/
def roundf (q : ℚ) : ℤ :=
  if q < 0 then -⌊-q + 1 / 2⌋ else ⌊q + 1 / 2⌋

/-- Modelled from the spec: `T::from_superset_unchecked` of the `Quantized`
type (`quantize.rs` is not under `src/`): the saturate-from-real conversion
clamps the rounded real to the representable range `[lo, hi]` of `T`
(spec sections 7 and 9: clamp, never wrap). -/
def from_superset_unchecked (lo hi z : ℤ) : ℤ :=
  max lo (min hi z)

/-- Modelled from the spec: `relu` of `activation.rs` (not under `src/`):
`max(y, z)` (spec section 4.3). -/
def relu (y z : ℤ) : ℤ := max y z

/-- Modelled from the spec: `relu6` of `activation.rs` (not under `src/`):
`max(z, min(y, round(6.0 / s) + z))` (spec section 4.3). -/
def relu6 (y : ℤ) (s : ℚ) (z : ℤ) : ℤ :=
  max z (min y (roundf (6 / s) + z))

/-- The raw average `x = 1. / len as f32 * view.cast::<i32>().sum() as f32`
of line 77 under SAME padding. When `len = 0` the source computes
`1.0 / 0.0 * 0.0 = ∞ * 0.0 = NaN` in `f32` (the window is then all zeros);
the NaN-poisoned value is modelled as `none`. -/
def samePixelX (d : Dims) (buf : ℕ → ℕ → List ℤ) (strides : ℕ × ℕ)
    (i j c : ℕ) : Option ℚ :=
  if sameLen d buf strides i j c = 0 then none
  else some ((1 / (sameLen d buf strides i j c : ℚ)) *
             ((sameSum d buf strides i j c : ℤ) : ℚ))

/-- The requantized code before activation (line 78) under SAME padding:
`y = T::from_superset_unchecked(&roundf(constants.0 * x + constants.1))`. -/
def samePixelY (d : Dims) (buf : ℕ → ℕ → List ℤ) (strides : ℕ × ℕ)
    (c0 c1 : ℚ) (lo hi : ℤ) (i j c : ℕ) : Option ℤ :=
  (samePixelX d buf strides i j c).map
    (fun x => from_superset_unchecked lo hi (roundf (c0 * x + c1)))

/-- One VALID-padding window element (lines 71-75). The source indexes the
buffer directly and panics out of bounds; the panic is modelled as `none`. -/
def validElem (d : Dims) (buf : ℕ → ℕ → List ℤ) (strides : ℕ × ℕ)
    (i j c m n : ℕ) : Option ℤ :=
  (bufGet d.input_rows d.input_cols buf
      (strides.1 * i + m) (strides.2 * j + n)).map
    (fun x => chanAccess x c)

/-- The raw average of line 77 under VALID padding; `len` is never
decremented, so the divisor is the full filter area. A panic on any access
(modelled `none`) poisons the pixel. -/
def validPixelX (d : Dims) (buf : ℕ → ℕ → List ℤ) (strides : ℕ × ℕ)
    (i j c : ℕ) : Option ℚ :=
  let w := (windowIdx d.filter_rows d.filter_cols).map
    (fun q => validElem d buf strides i j c q.1 q.2)
  if w.all (fun e => e.isSome) then
    some ((1 / ((d.filter_rows * d.filter_cols : ℕ) : ℚ)) *
          (((w.map (fun e => e.getD 0)).sum : ℤ) : ℚ))
  else none

/-- The full operator (lines 25-89), given per output coordinate
`(i, j, c)`: window reduction under the chosen padding, requantization
`roundf(constants.0 * x + constants.1)` saturated into `[lo, hi]`, then the
fused activation. `none` marks the NaN-poisoned degenerate SAME window (or a
VALID out-of-bounds panic). Output scale and zero-point are passed through to
the activation exactly as in lines 79-83. -/
def average_pool_2d (d : Dims) (input : ℕ → ℕ → List ℤ)
    (output_scale : ℚ) (output_zero_point : ℤ)
    (options : AveragePool2DOptions) (constants : ℚ × ℚ)
    (lo hi : ℤ) (i j c : ℕ) : Option ℤ :=
  let x? : Option ℚ :=
    match options.padding with
    | AveragePool2DPadding.SAME => samePixelX d input options.strides i j c
    | AveragePool2DPadding.VALID => validPixelX d input options.strides i j c
  x?.map (fun x =>
    let y := from_superset_unchecked lo hi (roundf (constants.1 * x + constants.2))
    match options.fused_activation with
    | FusedActivation.NONE => y
    | FusedActivation.RELU => relu y output_zero_point
    | FusedActivation.RELU6 => relu6 y output_scale output_zero_point)

/-- The dimensions of the end-to-end test (lines 97-136): 2×3 input,
2×3 filter. -/
def testDims : Dims := ⟨2, 3, 2, 3⟩

/-- The two-channel 2×3 test input grid (lines 97-104). -/
def testInput : ℕ → ℕ → List ℤ := fun r c =>
  if r = 0 then
    if c = 0 then [1, 2] else if c = 1 then [3, 4] else [5, 6]
  else
    if c = 0 then [7, 8] else if c = 1 then [9, 10] else [11, 12]

/-- A 1×1 input with a degenerate SAME window at output coordinate (1, 1). -/
def degDims : Dims := ⟨1, 1, 1, 1⟩

/-- The single-pixel, single-channel input of the degenerate configuration. -/
def degInput : ℕ → ℕ → List ℤ := fun _ _ => [5]

/-- Splitting a count by a predicate and its negation recovers the length. -/
theorem countP_add_countP_not (p : α → Bool) :
    ∀ l : List α, l.countP p + l.countP (fun a => !(p a)) = l.length := by
  intro l
  induction l with
  | nil => simp
  | cons a t ih =>
    cases hp : p a <;> simp [List.countP_cons, hp] <;> omega

/-- Dropping zero-valued entries from a sum: if every entry failing `p` maps
to 0, the sum over the whole list equals the sum over the `p`-filtered list. -/
theorem sum_map_filter (p : α → Bool) (f : α → ℤ) :
    ∀ l : List α, (∀ a ∈ l, p a = false → f a = 0) →
      (l.map f).sum = ((l.filter p).map f).sum := by
  intro l
  induction l with
  | nil => simp
  | cons a t ih =>
    intro h
    cases hp : p a with
    | false =>
      have ha : f a = 0 := h a (by simp) hp
      simp [List.filter_cons, hp, ha, ih (fun b hb hpb => h b (by simp [hb]) hpb)]
    | true =>
      simp [List.filter_cons, hp, ih (fun b hb hpb => h b (by simp [hb]) hpb)]

/-- `windowIdx fr fc` has one entry per window position. -/
theorem windowIdx_length (fr fc : ℕ) : (windowIdx fr fc).length = fr * fc := by
  simp [windowIdx]

/-- Every member of `windowIdx fr fc` is a position `(m, n)` with `m < fr`
and `n < fc`. -/
theorem mem_windowIdx {fr fc : ℕ} {q : ℕ × ℕ} (h : q ∈ windowIdx fr fc) :
    q.1 < fr ∧ q.2 < fc := by
  rcases List.mem_map.1 h with ⟨k, hk, rfl⟩
  have hk' : k < fr * fc := List.mem_range.1 hk
  have hfc : 0 < fc := by
    by_contra hfc
    have h0 : fc = 0 := by omega
    rw [h0, Nat.mul_zero] at hk'
    omega
  exact ⟨(Nat.div_lt_iff_lt_mul hfc).2 hk', Nat.mod_lt _ hfc⟩

/-- The exclusion flag of a SAME window element is the negation of the
in-bounds test: an element is excluded (and `len` decremented, exactly once)
precisely when its candidate index underflows or falls outside the input. -/
theorem sameElem_snd (d : Dims) (buf : ℕ → ℕ → List ℤ) (strides : ℕ × ℕ)
    (i j c m n : ℕ) :
    (sameElem d buf strides i j c m n).2 = !(inBoundsB d strides i j m n) := by
  unfold sameElem inBoundsB bufGet
  split_ifs with h1 h2 h3 <;> simp_all <;> omega

/-- An in-bounds SAME window element stores the input code at its shifted
index (with channel broadcast fallback). -/
theorem sameElem_fst_in (d : Dims) (buf : ℕ → ℕ → List ℤ) (strides : ℕ × ℕ)
    (i j c : ℕ) (q : ℕ × ℕ) (h : inBoundsB d strides i j q.1 q.2 = true) :
    (sameElem d buf strides i j c q.1 q.2).1 = sameValue d buf strides i j c q := by
  unfold inBoundsB at h
  simp only [Bool.and_eq_true, decide_eq_true_eq] at h
  obtain ⟨⟨⟨hA, hB⟩, hC⟩, hD⟩ := h
  unfold sameElem sameValue bufGet
  rw [if_neg (by omega), if_neg (by omega), if_pos ⟨hC, hD⟩]

/-- An excluded SAME window element stores the code 0, so it contributes
nothing to the accumulated sum. -/
theorem sameElem_fst_out (d : Dims) (buf : ℕ → ℕ → List ℤ) (strides : ℕ × ℕ)
    (i j c : ℕ) (q : ℕ × ℕ) (h : inBoundsB d strides i j q.1 q.2 = false) :
    (sameElem d buf strides i j c q.1 q.2).1 = 0 := by
  unfold inBoundsB at h
  unfold sameElem bufGet
  split_ifs with h1 h2 h3
  · rfl
  · rfl
  · exfalso
    simp only [Bool.and_eq_false_iff, decide_eq_false_iff_not] at h
    omega
  · rfl

/-- The divisor `len` equals the number of in-bounds window positions. -/
theorem sameLen_eq_count (d : Dims) (buf : ℕ → ℕ → List ℤ) (strides : ℕ × ℕ)
    (i j c : ℕ) :
    sameLen d buf strides i j c = inBoundsCount d strides i j := by
  unfold sameLen inBoundsCount sameWindow
  rw [List.countP_map]
  have hcong : (windowIdx d.filter_rows d.filter_cols).countP
      ((fun e : ℤ × Bool => e.2) ∘ fun q : ℕ × ℕ => sameElem d buf strides i j c q.1 q.2) =
      (windowIdx d.filter_rows d.filter_cols).countP
      (fun q : ℕ × ℕ => !(inBoundsB d strides i j q.1 q.2)) := by
    apply List.countP_congr
    intro q _
    simp [Function.comp, sameElem_snd]
  rw [hcong]
  have hsplit := countP_add_countP_not
    (fun q : ℕ × ℕ => inBoundsB d strides i j q.1 q.2)
    (windowIdx d.filter_rows d.filter_cols)
  have hlen := windowIdx_length d.filter_rows d.filter_cols
  have hle := List.countP_le_length
    (fun q : ℕ × ℕ => inBoundsB d strides i j q.1 q.2)
    (l := windowIdx d.filter_rows d.filter_cols)
  omega

/-- Claim C1: under SAME padding the averaging divisor used by
`average_pool_2d` equals the number of in-bounds window elements; at any
coordinate whose full window lies within the input bounds it equals
`FILTER_ROWS * FILTER_COLS` exactly (and hence at a corner it equals exactly
the count of window positions remaining within
`[0, input_rows) × [0, input_cols)`). -/
theorem avg_pool_same_divisor_counts_in_bounds (d : Dims)
    (buf : ℕ → ℕ → List ℤ) (strides : ℕ × ℕ) (i j c : ℕ) :
    sameLen d buf strides i j c = inBoundsCount d strides i j ∧
    ((∀ q ∈ windowIdx d.filter_rows d.filter_cols,
        inBoundsB d strides i j q.1 q.2 = true) →
      sameLen d buf strides i j c = d.filter_rows * d.filter_cols) := by
  refine ⟨sameLen_eq_count d buf strides i j c, fun hall => ?_⟩
  rw [sameLen_eq_count d buf strides i j c]
  unfold inBoundsCount
  rw [List.countP_eq_length.2 (by intro q hq; exact hall q hq)]
  exact windowIdx_length d.filter_rows d.filter_cols

/-- Witness for C1: in the 2×3 test configuration, the window of output
coordinate (0, 1) lies fully in bounds and the divisor is the nominal filter
area 2 * 3 = 6. -/
theorem avg_pool_same_divisor_witness :
    (∀ q ∈ windowIdx testDims.filter_rows testDims.filter_cols,
        inBoundsB testDims (1, 1) 0 1 q.1 q.2 = true) ∧
    sameLen testDims testInput (1, 1) 0 1 0 =
      testDims.filter_rows * testDims.filter_cols :=
  ⟨by decide,
   (avg_pool_same_divisor_counts_in_bounds testDims testInput (1, 1) 0 1 0).2
     (by decide)⟩

/-- Claim C10: under SAME padding every excluded window element is flagged
exactly once — the divisor plus the number of out-of-bounds window positions
(each counted once, even when both coordinates are out of range) is the
nominal filter area — and an excluded element stores code 0, so the
accumulated sum equals the sum over exactly the in-bounds window elements. -/
theorem avg_pool_same_sum_over_in_bounds (d : Dims) (buf : ℕ → ℕ → List ℤ)
    (strides : ℕ × ℕ) (i j c : ℕ) :
    (∀ q ∈ windowIdx d.filter_rows d.filter_cols,
        (sameElem d buf strides i j c q.1 q.2).2 = true →
        (sameElem d buf strides i j c q.1 q.2).1 = 0) ∧
    sameSum d buf strides i j c = inBoundsSum d buf strides i j c ∧
    sameLen d buf strides i j c +
      ((windowIdx d.filter_rows d.filter_cols).filter
        (fun q => !(inBoundsB d strides i j q.1 q.2))).length =
      d.filter_rows * d.filter_cols := by
  refine ⟨?_, ?_, ?_⟩
  · intro q _ hexc
    rw [sameElem_snd] at hexc
    exact sameElem_fst_out d buf strides i j c q (by
      cases hb : inBoundsB d strides i j q.1 q.2
      · rfl
      · rw [hb] at hexc; exact absurd hexc (by simp))
  · unfold sameSum sameWindow inBoundsSum
    rw [List.map_map]
    rw [sum_map_filter (fun q : ℕ × ℕ => inBoundsB d strides i j q.1 q.2)
      ((fun e : ℤ × Bool => e.1) ∘ fun q : ℕ × ℕ => sameElem d buf strides i j c q.1 q.2)
      (windowIdx d.filter_rows d.filter_cols)
      (fun q _ hq => sameElem_fst_out d buf strides i j c q hq)]
    refine congrArg List.sum (List.map_congr_left ?_)
    intro q hq
    exact sameElem_fst_in d buf strides i j c q (List.mem_filter.1 hq).2
  · rw [sameLen_eq_count d buf strides i j c]
    unfold inBoundsCount
    rw [← List.countP_eq_length_filter, ← windowIdx_length d.filter_rows d.filter_cols]
    exact countP_add_countP_not _ _

/-- Witness for C10: at output coordinate (0, 0) of the test configuration,
window position (0, 0) is excluded (its column underflows), stores code 0,
and the window sum 20 equals the sum over the in-bounds elements. -/
theorem avg_pool_same_sum_witness :
    (sameElem testDims testInput (1, 1) 0 0 0 0 0).2 = true ∧
    (sameElem testDims testInput (1, 1) 0 0 0 0 0).1 = 0 ∧
    sameSum testDims testInput (1, 1) 0 0 0 =
      inBoundsSum testDims testInput (1, 1) 0 0 0 :=
  ⟨by decide,
   (avg_pool_same_sum_over_in_bounds testDims testInput (1, 1) 0 0 0).1
     (0, 0) (by decide) (by decide),
   (avg_pool_same_sum_over_in_bounds testDims testInput (1, 1) 0 0 0).2.1⟩

/-- Claim C3: whenever the window is non-degenerate and the rounded value is
representable, the requantized code before activation equals
`roundf(multiplier * (sum / count) + offset)` with the raw average computed
in exact (real) arithmetic and `roundf` rounding half away from zero. -/
theorem avg_pool_requantize_round_half_away (d : Dims)
    (buf : ℕ → ℕ → List ℤ) (strides : ℕ × ℕ) (c0 c1 : ℚ) (lo hi : ℤ)
    (i j c : ℕ)
    (h0 : sameLen d buf strides i j c ≠ 0)
    (hlo : lo ≤ roundf (c0 * ((sameSum d buf strides i j c : ℚ) /
      (sameLen d buf strides i j c : ℚ)) + c1))
    (hhi : roundf (c0 * ((sameSum d buf strides i j c : ℚ) /
      (sameLen d buf strides i j c : ℚ)) + c1) ≤ hi) :
    samePixelY d buf strides c0 c1 lo hi i j c =
      some (roundf (c0 * ((sameSum d buf strides i j c : ℚ) /
        (sameLen d buf strides i j c : ℚ)) + c1)) := by
  unfold samePixelY samePixelX
  rw [if_neg h0]
  rw [Option.map_some', one_div_mul_eq_div]
  unfold from_superset_unchecked
  rw [min_eq_right hhi, max_eq_right hlo]

set_option maxRecDepth 100000 in
unseal Rat.add Rat.mul Rat.inv in
/-- Witness for C3: at output coordinate (0, 0, 0) of the test configuration
the window has sum 20 and count 4, and the pre-activation code is
`roundf(0.8666667 * 5 + 3.8666666) = 8`, inside `[-128, 127]`. -/
theorem avg_pool_requantize_round_witness :
    sameLen testDims testInput (1, 1) 0 0 0 ≠ 0 ∧
    (-128 : ℤ) ≤ roundf ((8666667 / 10000000 : ℚ) *
      ((sameSum testDims testInput (1, 1) 0 0 0 : ℚ) /
       (sameLen testDims testInput (1, 1) 0 0 0 : ℚ)) + 38666666 / 10000000) ∧
    roundf ((8666667 / 10000000 : ℚ) *
      ((sameSum testDims testInput (1, 1) 0 0 0 : ℚ) /
       (sameLen testDims testInput (1, 1) 0 0 0 : ℚ)) + 38666666 / 10000000) ≤ 127 ∧
    samePixelY testDims testInput (1, 1) (8666667 / 10000000)
      (38666666 / 10000000) (-128) 127 0 0 0 =
      some (roundf ((8666667 / 10000000 : ℚ) *
        ((sameSum testDims testInput (1, 1) 0 0 0 : ℚ) /
         (sameLen testDims testInput (1, 1) 0 0 0 : ℚ)) + 38666666 / 10000000)) :=
  ⟨by decide, by decide, by decide,
   avg_pool_requantize_round_half_away testDims testInput (1, 1)
     (8666667 / 10000000) (38666666 / 10000000) (-128) 127 0 0 0
     (by decide) (by decide) (by decide)⟩

/-- Claim C4: when `multiplier * raw_average + offset` rounds outside the
representable range `[lo, hi]` of the output quantized type on either end,
the requantized code is the nearest boundary (`hi` above, `lo` below):
a saturating clamp, never a wrapped value. -/
theorem avg_pool_requantize_saturates (d : Dims) (buf : ℕ → ℕ → List ℤ)
    (strides : ℕ × ℕ) (c0 c1 : ℚ) (lo hi : ℤ) (i j c : ℕ)
    (hrange : lo ≤ hi) (h0 : sameLen d buf strides i j c ≠ 0) :
    (hi < roundf (c0 * ((sameSum d buf strides i j c : ℚ) /
        (sameLen d buf strides i j c : ℚ)) + c1) →
      samePixelY d buf strides c0 c1 lo hi i j c = some hi) ∧
    (roundf (c0 * ((sameSum d buf strides i j c : ℚ) /
        (sameLen d buf strides i j c : ℚ)) + c1) < lo →
      samePixelY d buf strides c0 c1 lo hi i j c = some lo) := by
  unfold samePixelY samePixelX
  rw [if_neg h0, Option.map_some', one_div_mul_eq_div]
  unfold from_superset_unchecked
  constructor
  · intro hover
    rw [min_eq_left (le_of_lt hover), max_eq_right hrange]
  · intro hunder
    rw [min_eq_right (le_trans (le_of_lt hunder) hrange),
      max_eq_left (le_of_lt hunder)]

set_option maxRecDepth 100000 in
unseal Rat.add Rat.mul Rat.inv in
/-- Witness for C4: with oversized multiplier 1000 the test window of
average 5 rounds to 5000 > 127, and the pre-activation code clamps to 127. -/
theorem avg_pool_requantize_saturates_witness :
    (-128 : ℤ) ≤ 127 ∧
    sameLen testDims testInput (1, 1) 0 0 0 ≠ 0 ∧
    (127 : ℤ) < roundf ((1000 : ℚ) *
      ((sameSum testDims testInput (1, 1) 0 0 0 : ℚ) /
       (sameLen testDims testInput (1, 1) 0 0 0 : ℚ)) + 0) ∧
    samePixelY testDims testInput (1, 1) 1000 0 (-128) 127 0 0 0 = some 127 :=
  ⟨by decide, by decide, by decide,
   (avg_pool_requantize_saturates testDims testInput (1, 1) 1000 0
     (-128) 127 0 0 0 (by decide) (by decide)).1 (by decide)⟩

/-- Claim C5: under VALID padding, if the caller precondition
`(output_rows - 1) * stride_r + FILTER_ROWS ≤ input_rows` holds (and
analogously for columns), every input access at
`(stride_r * i + m, stride_c * j + n)` is within the input bounds, so the
out-of-bounds branch (a panic in the source) is unreachable. -/
theorem avg_pool_valid_accesses_in_bounds (d : Dims) (buf : ℕ → ℕ → List ℤ)
    (strides : ℕ × ℕ) (output_rows output_cols : ℕ)
    (hr : (output_rows - 1) * strides.1 + d.filter_rows ≤ d.input_rows)
    (hc : (output_cols - 1) * strides.2 + d.filter_cols ≤ d.input_cols)
    (i j c : ℕ) (hio : i < output_rows) (hjo : j < output_cols) :
    ∀ q ∈ windowIdx d.filter_rows d.filter_cols,
      strides.1 * i + q.1 < d.input_rows ∧
      strides.2 * j + q.2 < d.input_cols ∧
      validElem d buf strides i j c q.1 q.2 =
        some (chanAccess (buf (strides.1 * i + q.1) (strides.2 * j + q.2)) c) := by
  intro q hq
  obtain ⟨hm, hn⟩ := mem_windowIdx hq
  have h1 : strides.1 * i ≤ strides.1 * (output_rows - 1) :=
    Nat.mul_le_mul_left _ (by omega)
  have h1c : strides.1 * (output_rows - 1) = (output_rows - 1) * strides.1 :=
    Nat.mul_comm _ _
  have hrow : strides.1 * i + q.1 < d.input_rows := by omega
  have h2 : strides.2 * j ≤ strides.2 * (output_cols - 1) :=
    Nat.mul_le_mul_left _ (by omega)
  have h2c : strides.2 * (output_cols - 1) = (output_cols - 1) * strides.2 :=
    Nat.mul_comm _ _
  have hcol : strides.2 * j + q.2 < d.input_cols := by omega
  refine ⟨hrow, hcol, ?_⟩
  unfold validElem bufGet
  rw [if_pos ⟨hrow, hcol⟩]
  rfl

/-- Witness for C5: the 2×3 input with 2×3 filter, strides (1, 1) and a
1×1 output satisfies the precondition, and the access at window position
(1, 2) of output (0, 0) is in bounds. -/
theorem avg_pool_valid_witness :
    (1 - 1) * 1 + testDims.filter_rows ≤ testDims.input_rows ∧
    (1 - 1) * 1 + testDims.filter_cols ≤ testDims.input_cols ∧
    validElem testDims testInput (1, 1) 0 0 0 1 2 =
      some (chanAccess (testInput 1 2) 0) :=
  ⟨by decide, by decide,
   ((avg_pool_valid_accesses_in_bounds testDims testInput (1, 1) 1 1
      (by decide) (by decide) 0 0 0 (by decide) (by decide)) (1, 2)
      (by decide)).2.2⟩

/-- Claim C7: with fused activation RELU, every code produced by
`average_pool_2d` is at least the output zero-point: the clamp is
`max(y, z)`. -/
theorem avg_pool_relu_output_ge_zero_point (d : Dims) (buf : ℕ → ℕ → List ℤ)
    (output_scale : ℚ) (output_zero_point : ℤ) (pad : AveragePool2DPadding)
    (strides : ℕ × ℕ) (constants : ℚ × ℚ) (lo hi : ℤ) (i j c : ℕ) (y : ℤ)
    (hy : average_pool_2d d buf output_scale output_zero_point
      ⟨FusedActivation.RELU, pad, strides⟩ constants lo hi i j c = some y) :
    output_zero_point ≤ y := by
  simp only [average_pool_2d] at hy
  obtain ⟨x, _, hyx⟩ := Option.map_eq_some'.1 hy
  rw [← hyx]
  exact le_max_right _ _

set_option maxRecDepth 100000 in
unseal Rat.add Rat.mul Rat.inv in
/-- Witness for C7: on the test configuration with RELU the output code at
(0, 0, 0) is `max(8, 16) = 16`, at least the zero-point 16. -/
theorem avg_pool_relu_witness :
    average_pool_2d testDims testInput (3 / 20) 16
      ⟨FusedActivation.RELU, AveragePool2DPadding.SAME, (1, 1)⟩
      (8666667 / 10000000, 38666666 / 10000000) (-128) 127 0 0 0 = some 16 ∧
    (16 : ℤ) ≤ 16 :=
  ⟨by decide,
   avg_pool_relu_output_ge_zero_point testDims testInput (3 / 20) 16
     AveragePool2DPadding.SAME (1, 1) (8666667 / 10000000, 38666666 / 10000000)
     (-128) 127 0 0 0 16 (by decide)⟩

/-- Claim C6: with fused activation RELU6 and a positive output scale, every
code produced by `average_pool_2d` lies in
`[zero_point, roundf(6 / output_scale) + zero_point]`: the clamp is
`max(z, min(y, roundf(6.0 / s) + z))`. -/
theorem avg_pool_relu6_output_range (d : Dims) (buf : ℕ → ℕ → List ℤ)
    (output_scale : ℚ) (output_zero_point : ℤ) (pad : AveragePool2DPadding)
    (strides : ℕ × ℕ) (constants : ℚ × ℚ) (lo hi : ℤ) (i j c : ℕ) (y : ℤ)
    (hs : 0 < output_scale)
    (hy : average_pool_2d d buf output_scale output_zero_point
      ⟨FusedActivation.RELU6, pad, strides⟩ constants lo hi i j c = some y) :
    output_zero_point ≤ y ∧
    y ≤ roundf (6 / output_scale) + output_zero_point := by
  have h6 : 0 ≤ roundf (6 / output_scale) := by
    have hpos : (0 : ℚ) < 6 / output_scale := div_pos (by norm_num) hs
    unfold roundf
    rw [if_neg (by linarith)]
    exact Int.floor_nonneg.2 (by linarith)
  simp only [average_pool_2d] at hy
  obtain ⟨x, _, hyx⟩ := Option.map_eq_some'.1 hy
  rw [← hyx]
  unfold relu6
  constructor
  · exact le_max_left _ _
  · exact max_le (by omega) (le_trans (min_le_right _ _) (le_refl _))

set_option maxRecDepth 100000 in
unseal Rat.add Rat.mul Rat.inv in
/-- Witness for C6: on the test configuration with RELU6 and output scale
0.15 the output code at (0, 0, 0) is 16, inside
`[16, roundf(6 / 0.15) + 16] = [16, 56]`. -/
theorem avg_pool_relu6_witness :
    (0 : ℚ) < 3 / 20 ∧
    average_pool_2d testDims testInput (3 / 20) 16
      ⟨FusedActivation.RELU6, AveragePool2DPadding.SAME, (1, 1)⟩
      (8666667 / 10000000, 38666666 / 10000000) (-128) 127 0 0 0 = some 16 ∧
    (16 : ℤ) ≤ 16 ∧ (16 : ℤ) ≤ roundf (6 / (3 / 20 : ℚ)) + 16 :=
  ⟨by decide, by decide,
   (avg_pool_relu6_output_range testDims testInput (3 / 20) 16
      AveragePool2DPadding.SAME (1, 1) (8666667 / 10000000, 38666666 / 10000000)
      (-128) 127 0 0 0 16 (by decide) (by decide)).1,
   (avg_pool_relu6_output_range testDims testInput (3 / 20) 16
      AveragePool2DPadding.SAME (1, 1) (8666667 / 10000000, 38666666 / 10000000)
      (-128) 127 0 0 0 16 (by decide) (by decide)).2⟩

/-- Claim C9: the channel access used for every window element reuses the
value at index 0 when the requested channel index is beyond the stored
channel values, and the value at index `c` otherwise. -/
theorem chan_access_broadcast_fallback (xs : List ℤ) (c : ℕ) (h : xs ≠ []) :
    (xs.length ≤ c → chanAccess xs c = xs.head h) ∧
    (∀ hc : c < xs.length, chanAccess xs c = xs.get ⟨c, hc⟩) := by
  constructor
  · intro hlen
    unfold chanAccess
    rw [List.get?_eq_none.2 hlen]
    cases xs with
    | nil => exact absurd rfl h
    | cons a t => rfl
  · intro hc
    unfold chanAccess
    rw [List.get?_eq_get hc]

/-- Witness for C9: on the two-channel element [5, 7], channel 3 broadcasts
the first value 5 and channel 1 reads the stored value 7. -/
theorem chan_access_broadcast_witness :
    ([5, 7] : List ℤ) ≠ [] ∧ chanAccess [5, 7] 3 = 5 ∧ chanAccess [5, 7] 1 = 7 :=
  ⟨by decide,
   (chan_access_broadcast_fallback [5, 7] 3 (by decide)).1 (by decide),
   (chan_access_broadcast_fallback [5, 7] 1 (by decide)).2 (by decide)⟩

set_option maxRecDepth 1000000 in
unseal Rat.add Rat.mul Rat.inv in
/-- Claim C8: the end-to-end test scenario (lines 97-136): two-channel 2×3
input, 2×3 filter, strides (1, 1), SAME padding, output scale 0.15,
zero-point 16, no activation, constants (0.8666667, 3.8666666) — the output
codes are exactly `[[8,9],[9,10],[10,11]],[[11,12],[12,13],[13,13]]`. -/
theorem avg_pool_end_to_end_test :
    (List.range 2).map (fun i => (List.range 3).map (fun j =>
      (List.range 2).map (fun c =>
        average_pool_2d testDims testInput (3 / 20) 16
          ⟨FusedActivation.NONE, AveragePool2DPadding.SAME, (1, 1)⟩
          (8666667 / 10000000, 38666666 / 10000000) (-128) 127 i j c))) =
    [[[some 8, some 9], [some 9, some 10], [some 10, some 11]],
     [[some 11, some 12], [some 12, some 13], [some 13, some 13]]] := by
  decide

/-- Claim C2 is violated by the code (code bug): at a SAME output coordinate
whose window lies fully outside the input the divisor is 0, and the source
has no guard: line 77 computes `1.0 / 0.0 * 0.0 = NaN` in `f32` and line 78
feeds NaN through `roundf` and the unchecked saturating cast (which yields
code 0 for `i8` in Rust), not the output zero-point 16. The NaN-poisoned
result is modelled as `none`; in particular it is not `some 16`. -/
theorem avg_pool_degenerate_window_not_zero_point :
    sameLen degDims degInput (1, 1) 1 1 0 = 0 ∧
    average_pool_2d degDims degInput (3 / 20) 16
      ⟨FusedActivation.NONE, AveragePool2DPadding.SAME, (1, 1)⟩
      (8666667 / 10000000, 38666666 / 10000000) (-128) 127 1 1 0 = none := by
  decide

end MicroFlow
